import Mathlib

/-!
Verification of the core logic of a Tkinter poker GUI
(source file poker_app_gui_pretty_v4.py).

The development shallowly embeds three parts of the program:
  1. the preflop trainer heuristic (function trainer_advice, source 879-986),
  2. the legal-action resolver and default bet sizing
     (functions legal_actions_now / parse_amount / act, source 611-636 and 757-768),
  3. the hand-progression controller: cpu loop, refresh timer logic and the
     paths that start a new hand (source 338-357, 596-609, 638-754, 789-793).

The game engine itself (module poker_engine) is an external collaborator and
is not part of the source tree; where its behaviour matters it is modelled
from the specification, and those definitions say so in their doc comments.
-/

/-! ## Preflop trainer heuristic (source 870-986) -/

/-- Card ranks, the 13-valued domain used by the trainer. -/
inductive Rank
  | R2 | R3 | R4 | R5 | R6 | R7 | R8 | R9 | RT | RJ | RQ | RK | RA
deriving DecidableEq, Fintype, Repr

/-- RANK_VAL, source 872: ranks enumerate to 2..14, ace high. -/
def rankVal : Rank → Nat
  | .R2 => 2
  | .R3 => 3
  | .R4 => 4
  | .R5 => 5
  | .R6 => 6
  | .R7 => 7
  | .R8 => 8
  | .R9 => 9
  | .RT => 10
  | .RJ => 11
  | .RQ => 12
  | .RK => 13
  | .RA => 14

/-- Table positions accepted by the trainer dialog (the TrainerSpot domain). -/
inductive Pos
  | UTG | HJ | CO | BTN | SB
deriving DecidableEq, Fintype, Repr

/-- Trainer verdict actions. -/
inductive TAction
  | Fold | Call | Raise
deriving DecidableEq, Repr

/-- Rationale text returned with a verdict.  Each constructor stands for one
of the twelve distinct literal explanation strings in the source; the default
fold explanation interpolates the normalized level string (source 985). -/
inductive Rationale
  | pairBig
  | pairLatePos
  | pairEarlyFold
  | suitedHigh
  | offsuitBroadway
  | connectorLate
  | connectorMid
  | connectorEarly
  | suitedAceLateMid
  | suitedAceAdvCall
  | suitedAceFold
  | lateSuitedSteal
  | defaultFold (level : String)
deriving DecidableEq, Repr

/-- Python characters stripped by str.strip (whitespace). -/
def pyIsSpace (c : Char) : Bool :=
  c = ' ' || c = '\t' || c = '\n' || c = '\r' || c = '\x0b' || c = '\x0c'

/-- Python str.strip: remove leading and trailing whitespace. -/
def pyStrip (s : String) : String :=
  String.mk (((s.toList.dropWhile pyIsSpace).reverse.dropWhile pyIsSpace).reverse)

/-- One pass of Python str.title over ASCII text: a letter that follows a
cased (alphabetic) character is lowercased, any other letter is uppercased. -/
def pyTitleGo : Bool → List Char → List Char
  | _, [] => []
  | prevCased, c :: cs =>
    if c.isAlpha then
      (if prevCased then c.toLower else c.toUpper) :: pyTitleGo true cs
    else
      c :: pyTitleGo false cs

/-- Python str.title for ASCII strings. -/
def pyTitle (s : String) : String :=
  String.mk (pyTitleGo false s.toList)

/-- Python (level or "Beginner"), source 886: None and the empty string are
falsy and fall back to the default. -/
def levelOrDefault : Option String → String
  | none => "Beginner"
  | some s => if s = "" then "Beginner" else s

/-- Source 886-888: strip and title-case the level, then replace anything
outside the three known levels by Beginner. -/
def normLevel (level : Option String) : String :=
  let l := pyTitle (pyStrip (levelOrDefault level))
  if l = "Beginner" ∨ l = "Intermediate" ∨ l = "Advanced" then l else "Beginner"

/-- Source 890: loosen = 0 / 1 / 2 for Beginner / Intermediate / Advanced.
Only applied to the output of normLevel. -/
def loosenOf (l : String) : Nat :=
  if l = "Beginner" then 0 else if l = "Intermediate" then 1 else 2

/-- Source 882-883: the higher-valued rank after the normalize-order swap. -/
def canonHi (r1 r2 : Rank) : Rank :=
  if rankVal r2 > rankVal r1 then r2 else r1

/-- Source 882-883: the lower-valued rank after the normalize-order swap. -/
def canonLo (r1 r2 : Rank) : Rank :=
  if rankVal r2 > rankVal r1 then r1 else r2

/-- Source 900: the premium hand set. -/
def premiums : List (Rank × Rank) :=
  [(.RA, .RA), (.RK, .RK), (.RQ, .RQ), (.RJ, .RJ), (.RA, .RK)]

/-- Source 901: the strong broadway set. -/
def strongBroadways : List (Rank × Rank) :=
  [(.RA, .RQ), (.RA, .RJ), (.RK, .RQ), (.RK, .RJ), (.RQ, .RJ)]

/-- Source 931: the extra offsuit broadway set of rule 3. -/
def offsuitBroadwaySet : List (Rank × Rank) :=
  [(.RA, .RQ), (.RA, .RK), (.RK, .RQ)]

/-- Source 906: pair_raise_cut, the loosen-th entry of [9, 8, 7]. -/
def pairRaiseCut (loosen : Nat) : Rank :=
  List.getD [Rank.R9, Rank.R8, Rank.R7] (min loosen 2) Rank.R2

/-- Source 907: pair_mid_raise_cut, the loosen-th entry of [6, 5, 4]. -/
def pairMidRaiseCut (loosen : Nat) : Rank :=
  List.getD [Rank.R6, Rank.R5, Rank.R4] (min loosen 2) Rank.R2

/-- Source 977: late_suited_cut, the loosen-th entry of [T, 9, 8]. -/
def lateSuitedCut (loosen : Nat) : Rank :=
  List.getD [Rank.RT, Rank.R9, Rank.R8] (min loosen 2) Rank.R2

/-- Source 938-942: the suited connector set widened by the loosen value. -/
def connectorsOf (loosen : Nat) : List (Rank × Rank) :=
  [(Rank.R9, Rank.R8), (Rank.RT, Rank.R9), (Rank.RJ, Rank.RT),
   (Rank.RQ, Rank.RJ), (Rank.RK, Rank.RQ), (Rank.R8, Rank.R7)]
  ++ (if 1 ≤ loosen then [(Rank.R7, Rank.R6), (Rank.R9, Rank.R7), (Rank.RT, Rank.R8)] else [])
  ++ (if 2 ≤ loosen then [(Rank.R6, Rank.R5), (Rank.R8, Rank.R6), (Rank.RJ, Rank.R9)] else [])

/-- The body of _trainer_advice after the level string has been normalized
(source 879-986 with level already replaced by its normalized form). -/
def trainer_adviceL (r1 r2 : Rank) (suited : Bool) (pos : Pos) (lvl : String) :
    TAction × Rationale :=
  -- normalize order, source 882-883
  let hi := canonHi r1 r2
  let lo := canonLo r1 r2
  let isPair := hi = lo
  let loosen := loosenOf lvl
  -- position buckets, source 895-897 (the tight bucket is computed but unused)
  let mid := pos = Pos.HJ ∨ pos = Pos.SB
  let late := pos = Pos.CO ∨ pos = Pos.BTN
  let key := (hi, lo)
  if isPair then
    -- rule 1, source 905-921
    if rankVal (pairRaiseCut loosen) ≤ rankVal hi then
      (TAction.Raise, Rationale.pairBig)
    else if late ∨ (mid ∧ rankVal (pairMidRaiseCut loosen) ≤ rankVal hi) then
      (TAction.Raise, Rationale.pairLatePos)
    else
      (TAction.Fold, Rationale.pairEarlyFold)
  else if suited ∧ (key ∈ premiums ∨ key ∈ strongBroadways ∨
      ((hi = Rank.RA ∨ hi = Rank.RK ∨ hi = Rank.RQ) ∧ rankVal Rank.RT ≤ rankVal lo)) then
    -- rule 2, source 924-928
    (TAction.Raise, Rationale.suitedHigh)
  else if (¬ suited) ∧ (key ∈ premiums ∨ key ∈ offsuitBroadwaySet) then
    -- rule 3, source 931-935
    (TAction.Raise, Rationale.offsuitBroadway)
  else if suited ∧ key ∈ connectorsOf loosen then
    -- rule 4, source 938-957
    if late then (TAction.Raise, Rationale.connectorLate)
    else if mid then (TAction.Call, Rationale.connectorMid)
    else (TAction.Fold, Rationale.connectorEarly)
  else if suited ∧ hi = Rank.RA ∧ rankVal Rank.R5 ≤ rankVal lo then
    -- rule 5, source 960-974
    if late ∨ mid then (TAction.Raise, Rationale.suitedAceLateMid)
    else if 2 ≤ loosen then (TAction.Call, Rationale.suitedAceAdvCall)
    else (TAction.Fold, Rationale.suitedAceFold)
  else if late ∧ suited ∧ rankVal (lateSuitedCut loosen) ≤ rankVal hi then
    -- rule 6, source 977-982
    (TAction.Raise, Rationale.lateSuitedSteal)
  else
    -- rule 7, source 983-986
    (TAction.Fold, Rationale.defaultFold lvl)

/-- _trainer_advice, source 879-986.  The level argument is an Option to
cover the Python None case handled by (level or "Beginner"). -/
def trainer_advice (r1 r2 : Rank) (suited : Bool) (pos : Pos)
    (level : Option String) : TAction × Rationale :=
  trainer_adviceL r1 r2 suited pos (normLevel level)

/-! ## Legal action resolver and default sizing (source 611-636, 757-768) -/

/-- The prompt snapshot the engine exposes while waiting for the human.
Fields are integers as in the Python dict; the data model promises they are
non-negative but the code does not enforce it, so claims that need
non-negativity carry it as a hypothesis. -/
structure Prompt where
  toCall : Int
  minRaiseTo : Int
  youStack : Int
  youBetStreet : Int
  pot : Int
deriving DecidableEq, Repr

/-- The six human action kinds of the action row. -/
inductive HAction
  | fold | check | call | bet | raise | allin
deriving DecidableEq, Repr

/-- _legal_actions_now, source 757-768: empty when no hand is active or no
prompt exists, otherwise determined by the sign of to_call. -/
def legal_actions_now (handActive : Bool) (prompt : Option Prompt) : Finset HAction :=
  if handActive = false then ∅
  else
    match prompt with
    | none => ∅
    | some p =>
      if p.toCall ≤ 0 then {HAction.check, HAction.bet, HAction.allin}
      else {HAction.fold, HAction.call, HAction.raise, HAction.allin}

/-- The amount-defaulting step of _act, source 620-632: when the action is
bet or raise, a prompt exists and the entered amount is not positive, the
default size is substituted (Python // is floor division, Int.fdiv). -/
def actAmount (action : HAction) (prompt : Option Prompt) (bb amt : Int) : Int :=
  match prompt with
  | none => amt
  | some p =>
    if (action = HAction.bet ∨ action = HAction.raise) ∧ amt ≤ 0 then
      if action = HAction.bet then
        min (max (bb * 2) (Int.fdiv p.pot 2)) p.youStack
      else
        min (max p.minRaiseTo (p.minRaiseTo + Int.fdiv p.pot 2)) (p.youStack + p.youBetStreet)
    else amt

/-- clamp as written in the specification: clamp(x, lo, hi) = min (max x lo) hi. -/
def clampSpec (x lo hi : Int) : Int := min (max x lo) hi

/-- DefaultBetSize exactly as the specification words it (with a lower clamp
bound of 1); kept separate from the source embedding for comparison. -/
def specDefaultBetSize (p : Prompt) (bb : Int) : Int :=
  clampSpec (max (2 * bb) (Int.fdiv p.pot 2)) 1 p.youStack

/-- DefaultRaiseSize exactly as the specification words it (with a lower
clamp bound of 1); kept separate from the source embedding for comparison. -/
def specDefaultRaiseSize (p : Prompt) : Int :=
  clampSpec (max p.minRaiseTo (p.minRaiseTo + Int.fdiv p.pot 2)) 1 (p.youStack + p.youBetStreet)

/-- Python int() digit reading after the first digit: single underscores are
allowed between digits only. -/
def pyDigitsGo : Nat → List Char → Option Nat
  | acc, [] => some acc
  | acc, c :: cs =>
    if c.isDigit then pyDigitsGo (acc * 10 + (c.toNat - 48)) cs
    else if c = '_' then
      match cs with
      | [] => none
      | d :: ds => if d.isDigit then pyDigitsGo (acc * 10 + (d.toNat - 48)) ds else none
    else none

/-- Python int() unsigned digit sequence: must start with a digit. -/
def pyDigits : List Char → Option Nat
  | [] => none
  | c :: cs => if c.isDigit then pyDigitsGo (c.toNat - 48) cs else none

/-- Python int() over a stripped character list: optional single sign, then
digits. -/
def pyIntCore : List Char → Option Int
  | [] => none
  | '+' :: cs => (pyDigits cs).map Int.ofNat
  | '-' :: cs => (pyDigits cs).map (fun n => -(Int.ofNat n))
  | l => (pyDigits l).map Int.ofNat

/-- Python int(s) for a string: strips whitespace, then parses an optionally
signed integer; none models the ValueError. -/
def pyInt? (s : String) : Option Int :=
  pyIntCore (pyStrip s).toList

/-- _parse_amount, source 611-618: strip the raw entry, treat the empty
string as 0, clamp a parsed value below by 0, and turn a parse failure
(ValueError) into 0. -/
def parse_amount (raw : String) : Int :=
  let r := pyStrip raw
  if r = "" then 0
  else
    match pyInt? r with
    | some n => max 0 n
    | none => 0

/-! ## Hand progression controller (source 338-357, 596-609, 638-754, 789-793)

The engine state is abstracted to the two flags the controller reads
(hand_active and waiting_for_human); the outcome of an engine advance call is
an oracle parameter, so theorems quantify over every possible engine
behaviour. -/

/-- The engine flags the cpu loop reads (source 604). -/
structure EngineS where
  handActive : Bool
  waitingForHuman : Bool
deriving DecidableEq, Repr

/-- The halting test of _cpu_loop, source 604: stop when the hand is over or
the human must act. -/
def haltNow (s : EngineS) : Bool := !s.handActive || s.waitingForHuman

/-- One scheduled _cpu_loop callback, source 603-609: either halt without
advancing, or advance exactly once and reschedule.  The Nat component counts
engine advance calls made by the step and the Bool component records whether
the step rescheduled itself. -/
def cpuLoopStep (adv : EngineS → EngineS) (s : EngineS) : EngineS × Nat × Bool :=
  if haltNow s then (s, 0, false) else (adv s, 1, true)

/-- The chain of scheduled _cpu_loop callbacks with fuel n: the engine state
when the chain stops rescheduling, paired with the total number of advance
calls.  adv is the engine advance oracle. -/
def driveRun (adv : EngineS → EngineS) : Nat → EngineS → EngineS × Nat
  | 0, s => (s, 0)
  | n + 1, s =>
    if haltNow s then (s, 0)
    else ((driveRun adv n (adv s)).1, (driveRun adv n (adv s)).2 + 1)

/-- Controller state for the auto-next-hand timer logic.  autoNextId models
whether _auto_next_after_id is not None, autoNextPend counts the scheduled
_auto_next_hand_if_idle callbacks actually pending in the Tk queue, and
starts counts engine start_new_hand calls. -/
structure Ctrl where
  handActive : Bool
  waitingForHuman : Bool
  autoNextId : Bool
  autoNextPend : Nat
  starts : Nat
deriving DecidableEq, Repr

/-- The timer block at the end of _refresh, source 743-754: when no hand is
active (auto_advance_hand is always true) schedule the auto-next callback
unless one is already recorded; otherwise cancel and clear a recorded one.
after_cancel of an already fired callback does nothing, hence the truncated
subtraction. -/
def refreshTimer (s : Ctrl) : Ctrl :=
  if s.handActive = false then
    if s.autoNextId then s
    else { s with autoNextId := true, autoNextPend := s.autoNextPend + 1 }
  else
    if s.autoNextId then
      { s with autoNextId := false, autoNextPend := s.autoNextPend - 1 }
    else s

/-- Modelled from the spec: StartNewHand (module poker_engine, not in the
source tree) resets per-hand state and begins dealing, so the hand becomes
active with nobody prompted yet.  The starts counter instruments the call. -/
def startNewHandE (s : Ctrl) : Ctrl :=
  { s with handActive := true, waitingForHuman := false, starts := s.starts + 1 }

/-- Modelled from the spec: Advance (module poker_engine, not in the source
tree) executes one atomic step with an arbitrary outcome on the two flags,
passed in as oracle values. -/
def advanceE (ha wh : Bool) (s : Ctrl) : Ctrl :=
  { s with handActive := ha, waitingForHuman := wh }

/-- Modelled from the spec: a freshly constructed PokerEngine (re-created on
preset or settings change) has no active hand and no prompt. -/
def freshEngineC (s : Ctrl) : Ctrl :=
  { s with handActive := false, waitingForHuman := false }

/-- _next_hand, source 597-601: start a new hand, advance once, refresh
(which runs the timer block) and schedule the cpu loop. -/
def nextHandC (ha wh : Bool) (s : Ctrl) : Ctrl :=
  refreshTimer (advanceE ha wh (startNewHandE s))

/-- One _cpu_loop callback including its refresh, source 603-609. -/
def cpuLoopC (ha wh : Bool) (s : Ctrl) : Ctrl :=
  if s.handActive = false ∨ s.waitingForHuman = true then refreshTimer s
  else refreshTimer (advanceE ha wh s)

/-- _act after the amount defaulting, source 633-636: apply the human action
and advance (oracle outcome), then refresh. -/
def actC (ha wh : Bool) (s : Ctrl) : Ctrl :=
  refreshTimer (advanceE ha wh s)

/-- _apply_cpu_preset, source 339-357: re-create the engine and refresh.
The deferred after(10, _next_hand) call it also makes is a later nextHandC
step; note that no pending auto-next timer is cancelled here. -/
def applyCpuPresetC (s : Ctrl) : Ctrl :=
  refreshTimer (freshEngineC s)

/-- The settings apply handler, source 849-862: re-create the engine and
refresh.  It schedules nothing and cancels nothing. -/
def settingsApplyC (s : Ctrl) : Ctrl :=
  refreshTimer (freshEngineC s)

/-- The entry bookkeeping of _auto_next_hand_if_idle, source 789-791: the
fired callback is no longer pending and the recorded id is cleared first. -/
def autoNextClear (s : Ctrl) : Ctrl :=
  { s with autoNextId := false, autoNextPend := s.autoNextPend - 1 }

/-- _auto_next_hand_if_idle, source 789-793: clear the recorded id, then
start a new hand only when no hand is active. -/
def autoNextFireC (ha wh : Bool) (s : Ctrl) : Ctrl :=
  if (autoNextClear s).handActive = false then nextHandC ha wh (autoNextClear s)
  else autoNextClear s

/-- Controller state after __init__, source 36-58: fresh engine, timer
fields cleared, then one refresh (which schedules the auto-next timer since
no hand is active yet); the deferred _next_hand is a later step. -/
def initCtrl : Ctrl :=
  refreshTimer { handActive := false, waitingForHuman := false,
                 autoNextId := false, autoNextPend := 0, starts := 0 }

/-- The operations the GUI can perform on the controller state, each with the
engine advance outcome as oracle values.  Callback steps are allowed at any
time (an over-approximation of the Tk queue), except that the auto-next
callback can only fire while it is actually pending. -/
inductive Step : Ctrl → Ctrl → Prop where
  | nextHand (s : Ctrl) (ha wh : Bool) : Step s (nextHandC ha wh s)
  | cpuLoop (s : Ctrl) (ha wh : Bool) : Step s (cpuLoopC ha wh s)
  | act (s : Ctrl) (ha wh : Bool) : Step s (actC ha wh s)
  | preset (s : Ctrl) : Step s (applyCpuPresetC s)
  | settings (s : Ctrl) : Step s (settingsApplyC s)
  | autoFire (s : Ctrl) (ha wh : Bool) (hpend : 1 ≤ s.autoNextPend) :
      Step s (autoNextFireC ha wh s)

/-- Controller states reachable from startup. -/
inductive Reach : Ctrl → Prop where
  | init : Reach initCtrl
  | step {s t : Ctrl} : Reach s → Step s t → Reach t

/-- The timer bookkeeping invariant: the recorded after-id exists exactly
when one auto-next callback is pending, and never more than one is. -/
def TimerInv (s : Ctrl) : Prop :=
  (s.autoNextId = true ∧ s.autoNextPend = 1) ∨
  (s.autoNextId = false ∧ s.autoNextPend = 0)

/-! ## Refresh and the win-probability estimate (source 670-682) -/

/-- The odds block of _refresh, source 670-682: an estimate is attempted only
when the hero has hole cards and at least one live opponent remains; a
failure of estimate_win_prob is caught and yields an absent estimate. -/
def refreshOdds (heroHole : Bool) (numOpps : Nat) (est : Except Unit Nat) : Option Nat :=
  if heroHole ∧ 0 < numOpps then
    match est with
    | Except.ok wp => some wp
    | Except.error _ => none
  else none

/-- _refresh restricted to the parts with observable state: the displayed
estimate and the timer block, source 670-682 and 743-754. -/
def refreshStep (heroHole : Bool) (numOpps : Nat) (est : Except Unit Nat) (s : Ctrl) :
    Option Nat × Ctrl :=
  (refreshOdds heroHole numOpps est, refreshTimer s)

/-- One _cpu_loop callback with its embedded refresh and the estimation
outcome made explicit, source 603-609: the Bool component records whether the
loop rescheduled itself. -/
def cpuLoopFull (ha wh heroHole : Bool) (numOpps : Nat) (est : Except Unit Nat)
    (s : Ctrl) : (Option Nat × Ctrl) × Bool :=
  if s.handActive = false ∨ s.waitingForHuman = true then
    (refreshStep heroHole numOpps est s, false)
  else
    (refreshStep heroHole numOpps est (advanceE ha wh s), true)

/-- A concrete engine advance oracle used to exercise the drive loop: the
advance call ends the hand. -/
def advStopW (s : EngineS) : EngineS :=
  { s with handActive := false }

/-! ## Theorems: trainer heuristic -/

/-- Helper: the normalized level string is always one of the three levels. -/
theorem normLevel_cases (level : Option String) :
    normLevel level = "Beginner" ∨ normLevel level = "Intermediate" ∨
      normLevel level = "Advanced" := by
  by_cases h : pyTitle (pyStrip (levelOrDefault level)) = "Beginner" ∨
      pyTitle (pyStrip (levelOrDefault level)) = "Intermediate" ∨
      pyTitle (pyStrip (levelOrDefault level)) = "Advanced"
  · rcases h with h | h | h <;> simp [normLevel, h]
  · simp [normLevel, h]

/-- Helper: a level whose stripped, title-cased form is none of the three
known levels normalizes to Beginner. -/
theorem normLevel_eq_beginner (level : Option String)
    (h1 : pyTitle (pyStrip (levelOrDefault level)) ≠ "Beginner")
    (h2 : pyTitle (pyStrip (levelOrDefault level)) ≠ "Intermediate")
    (h3 : pyTitle (pyStrip (levelOrDefault level)) ≠ "Advanced") :
    normLevel level = "Beginner" := by
  simp [normLevel, h1, h2, h3]

/-- Claim C1, counterexample: a pair of twos on the button is below the pair
raise cut and below the mid raise cut, so the claim as stated demands Fold,
yet trainer_advice returns Raise (the code raises for every late-position
pair regardless of the mid cut). -/
theorem pair_rule_cex :
    (trainer_advice Rank.R2 Rank.R2 false Pos.BTN (some "Beginner")).1 = TAction.Raise ∧
    rankVal Rank.R2 < rankVal (pairRaiseCut (loosenOf (normLevel (some "Beginner")))) ∧
    rankVal Rank.R2 < rankVal (pairMidRaiseCut (loosenOf (normLevel (some "Beginner")))) := by
  decide

/-- Claim C1 (amended): for a pair below the loosen-th entry of [9,8,7] the
verdict is Raise exactly when the position is late (CO or BTN), or the
position is mid (HJ or SB) and the rank is at least the loosen-th entry of
[6,5,4]; a pair at or above the raise cut always raises, and every other
pair folds. -/
theorem pair_rule_amended (r : Rank) (suited : Bool) (pos : Pos) (level : Option String) :
    (rankVal (pairRaiseCut (loosenOf (normLevel level))) ≤ rankVal r →
      (trainer_advice r r suited pos level).1 = TAction.Raise) ∧
    (rankVal r < rankVal (pairRaiseCut (loosenOf (normLevel level))) →
      ((trainer_advice r r suited pos level).1 = TAction.Raise ↔
        (pos = Pos.CO ∨ pos = Pos.BTN) ∨
        ((pos = Pos.HJ ∨ pos = Pos.SB) ∧
          rankVal (pairMidRaiseCut (loosenOf (normLevel level))) ≤ rankVal r))) ∧
    ((trainer_advice r r suited pos level).1 = TAction.Raise ∨
      (trainer_advice r r suited pos level).1 = TAction.Fold) := by
  rcases normLevel_cases level with h | h | h <;>
    simp only [trainer_advice, h] <;> revert r suited pos <;> decide

/-- Witness for the amended pair rule: a pair of nines raises from UTG at
Beginner level since it meets the pair raise cut. -/
theorem pair_rule_amended_witness :
    (trainer_advice Rank.R9 Rank.R9 false Pos.UTG (some "Beginner")).1 = TAction.Raise :=
  (pair_rule_amended Rank.R9 false Pos.UTG (some "Beginner")).1 (by decide)

/-- Claim C7 (confirmed): a suited non-pair hand that no earlier rule
matches and whose canonical rank pair lies in the loosen-widened connector
set raises in late position, calls in mid position and folds at UTG; in
particular 98 suited raises on the button and folds at UTG for a beginner. -/
theorem suited_connector_thm (r1 r2 : Rank) (pos : Pos) (level : Option String)
    (hnp : canonHi r1 r2 ≠ canonLo r1 r2)
    (h2 : ¬ ((canonHi r1 r2, canonLo r1 r2) ∈ premiums ∨
             (canonHi r1 r2, canonLo r1 r2) ∈ strongBroadways ∨
             ((canonHi r1 r2 = Rank.RA ∨ canonHi r1 r2 = Rank.RK ∨ canonHi r1 r2 = Rank.RQ) ∧
               rankVal Rank.RT ≤ rankVal (canonLo r1 r2))))
    (hc : (canonHi r1 r2, canonLo r1 r2) ∈ connectorsOf (loosenOf (normLevel level))) :
    (trainer_advice r1 r2 true pos level).1 =
      (if pos = Pos.CO ∨ pos = Pos.BTN then TAction.Raise
       else if pos = Pos.HJ ∨ pos = Pos.SB then TAction.Call
       else TAction.Fold) ∧
    (trainer_advice Rank.R9 Rank.R8 true Pos.BTN (some "Beginner")).1 = TAction.Raise ∧
    (trainer_advice Rank.R9 Rank.R8 true Pos.UTG (some "Beginner")).1 = TAction.Fold := by
  refine ⟨?_, by decide, by decide⟩
  rcases normLevel_cases level with h | h | h <;>
    rw [h] at hc <;> simp only [trainer_advice, h] <;>
    revert r1 r2 pos <;> decide

/-- Witness for the suited connector rule at the button instance. -/
theorem suited_connector_thm_witness :
    (trainer_advice Rank.R9 Rank.R8 true Pos.BTN (some "Beginner")).1 = TAction.Raise :=
  (suited_connector_thm Rank.R9 Rank.R8 Pos.BTN (some "Beginner")
    (by decide) (by decide) (by decide)).2.1

/-- Claim C8 (confirmed): a suited ace with low rank at least five that no
earlier rule matches raises in mid or late position, calls elsewhere when
loosen is at least 2, and folds otherwise. -/
theorem suited_ace_thm (r1 r2 : Rank) (pos : Pos) (level : Option String)
    (hnp : canonHi r1 r2 ≠ canonLo r1 r2)
    (h2 : ¬ ((canonHi r1 r2, canonLo r1 r2) ∈ premiums ∨
             (canonHi r1 r2, canonLo r1 r2) ∈ strongBroadways ∨
             ((canonHi r1 r2 = Rank.RA ∨ canonHi r1 r2 = Rank.RK ∨ canonHi r1 r2 = Rank.RQ) ∧
               rankVal Rank.RT ≤ rankVal (canonLo r1 r2))))
    (hc : (canonHi r1 r2, canonLo r1 r2) ∉ connectorsOf (loosenOf (normLevel level)))
    (hA : canonHi r1 r2 = Rank.RA)
    (h5 : rankVal Rank.R5 ≤ rankVal (canonLo r1 r2)) :
    (trainer_advice r1 r2 true pos level).1 =
      (if pos = Pos.HJ ∨ pos = Pos.SB ∨ pos = Pos.CO ∨ pos = Pos.BTN then TAction.Raise
       else if 2 ≤ loosenOf (normLevel level) then TAction.Call
       else TAction.Fold) := by
  rcases normLevel_cases level with h | h | h <;>
    rw [h] at hc <;> simp only [trainer_advice, h] <;>
    revert r1 r2 pos <;> decide

/-- Witness for the suited ace rule: ace-seven suited raises from the small
blind at Beginner level. -/
theorem suited_ace_thm_witness :
    (trainer_advice Rank.RA Rank.R7 true Pos.SB (some "Beginner")).1 = TAction.Raise := by
  have h := suited_ace_thm Rank.RA Rank.R7 Pos.SB (some "Beginner")
    (by decide) (by decide) (by decide) (by decide) (by decide)
  exact h.trans (by decide)

/-- Claim C10 (confirmed): the level string is stripped, title-cased and
defaulted to Beginner when unrecognized, absent or empty; in particular a
trailing-space lowercase advanced level behaves exactly like Advanced. -/
theorem level_normalization_thm (r1 r2 : Rank) (s : Bool) (p : Pos) (level : Option String) :
    trainer_advice r1 r2 s p level = trainer_adviceL r1 r2 s p (normLevel level) ∧
    (pyTitle (pyStrip (levelOrDefault level)) ≠ "Beginner" →
     pyTitle (pyStrip (levelOrDefault level)) ≠ "Intermediate" →
     pyTitle (pyStrip (levelOrDefault level)) ≠ "Advanced" →
     trainer_advice r1 r2 s p level = trainer_advice r1 r2 s p (some "Beginner")) ∧
    trainer_advice r1 r2 s p (some "advanced ") = trainer_advice r1 r2 s p (some "Advanced") ∧
    trainer_advice r1 r2 s p none = trainer_advice r1 r2 s p (some "Beginner") ∧
    trainer_advice r1 r2 s p (some "") = trainer_advice r1 r2 s p (some "Beginner") := by
  refine ⟨rfl, ?_, ?_, ?_, ?_⟩
  · intro h1 h2 h3
    have hb : normLevel level = "Beginner" := normLevel_eq_beginner level h1 h2 h3
    have hb2 : normLevel (some "Beginner") = "Beginner" := by decide
    simp only [trainer_advice, hb, hb2]
  · have h1 : normLevel (some "advanced ") = "Advanced" := by decide
    have h2 : normLevel (some "Advanced") = "Advanced" := by decide
    simp only [trainer_advice, h1, h2]
  · have h1 : normLevel none = "Beginner" := by decide
    have h2 : normLevel (some "Beginner") = "Beginner" := by decide
    simp only [trainer_advice, h1, h2]
  · have h1 : normLevel (some "") = "Beginner" := by decide
    have h2 : normLevel (some "Beginner") = "Beginner" := by decide
    simp only [trainer_advice, h1, h2]

/-- Witness for level normalization: an unrecognized level string behaves
like Beginner on a concrete spot. -/
theorem level_normalization_thm_witness :
    trainer_advice Rank.RA Rank.RK true Pos.BTN (some "expert") =
      trainer_advice Rank.RA Rank.RK true Pos.BTN (some "Beginner") :=
  (level_normalization_thm Rank.RA Rank.RK true Pos.BTN (some "expert")).2.1
    (by decide) (by decide) (by decide)

/-! ## Theorems: legal action resolver and default sizing -/

/-- Claim C2, counterexample: with prompt pot 0, min raise to 10, stack 5,
street bet 0 the substituted raise default is 5, which is below minRaiseTo,
contradicting the claimed lower bound; and with big blind 0 and pot 0 the
substituted bet default is 0 while the claimed clamp formula with lower
bound 1 gives 1. -/
theorem default_sizing_cex :
    actAmount HAction.raise (some ⟨5, 10, 5, 0, 0⟩) 2 0 = 5 ∧
    ¬ ((10 : Int) ≤ actAmount HAction.raise (some ⟨5, 10, 5, 0, 0⟩) 2 0) ∧
    actAmount HAction.bet (some ⟨0, 0, 5, 0, 0⟩) 0 0 = 0 ∧
    specDefaultBetSize ⟨0, 0, 5, 0, 0⟩ 0 = 1 := by
  decide

/-- Claim C2 (amended): when the entered amount is absent or invalid the
substituted defaults are min(max(2*bb, pot div 2), youStack) for bet and
min(max(minRaiseTo, minRaiseTo + pot div 2), youStack + youBetStreet) for
raise, with no lower clamp to 1; the bet default never exceeds youStack, the
raise default never exceeds youStack + youBetStreet and is at least
minRaiseTo whenever minRaiseTo fits inside youStack + youBetStreet; for a
positive big blind the bet default agrees with the clamp formula of the
specification. -/
theorem default_sizing_amended (p : Prompt) (bb amt : Int)
    (_hmrt : 0 ≤ p.minRaiseTo) (_hstk : 0 ≤ p.youStack) (_hbs : 0 ≤ p.youBetStreet)
    (_hpot : 0 ≤ p.pot) (hamt : amt ≤ 0) :
    actAmount HAction.bet (some p) bb amt = min (max (bb * 2) (Int.fdiv p.pot 2)) p.youStack ∧
    actAmount HAction.raise (some p) bb amt =
      min (max p.minRaiseTo (p.minRaiseTo + Int.fdiv p.pot 2)) (p.youStack + p.youBetStreet) ∧
    actAmount HAction.bet (some p) bb amt ≤ p.youStack ∧
    actAmount HAction.raise (some p) bb amt ≤ p.youStack + p.youBetStreet ∧
    (p.minRaiseTo ≤ p.youStack + p.youBetStreet →
      p.minRaiseTo ≤ actAmount HAction.raise (some p) bb amt) ∧
    (1 ≤ bb → actAmount HAction.bet (some p) bb amt = specDefaultBetSize p bb) := by
  have hb : actAmount HAction.bet (some p) bb amt =
      min (max (bb * 2) (Int.fdiv p.pot 2)) p.youStack := by
    simp [actAmount, hamt]
  have hr : actAmount HAction.raise (some p) bb amt =
      min (max p.minRaiseTo (p.minRaiseTo + Int.fdiv p.pot 2)) (p.youStack + p.youBetStreet) := by
    simp [actAmount, hamt]
  refine ⟨hb, hr, ?_, ?_, ?_, ?_⟩
  · rw [hb]; exact min_le_right _ _
  · rw [hr]; exact min_le_right _ _
  · intro h; rw [hr]; exact le_min (le_max_left _ _) h
  · intro h1
    rw [hb]
    unfold specDefaultBetSize clampSpec
    have h2 : (2 : Int) * bb = bb * 2 := by ring
    rw [h2]
    have h3 : (1 : Int) ≤ max (bb * 2) (Int.fdiv p.pot 2) := by
      have h4 : (1 : Int) ≤ bb * 2 := by linarith
      exact le_trans h4 (le_max_left _ _)
    rw [max_eq_left h3]

/-- Witness for the amended default sizing at a concrete prompt: with big
blind 2, pot 7 and stack 50 the bet default is 4 and the raise default going
to 10 plus half the pot is 13. -/
theorem default_sizing_amended_witness :
    actAmount HAction.bet (some ⟨0, 10, 50, 0, 7⟩) 2 0 = 4 ∧
    actAmount HAction.raise (some ⟨0, 10, 50, 0, 7⟩) 2 0 = 13 := by
  have h := default_sizing_amended ⟨0, 10, 50, 0, 7⟩ 2 0
    (by decide) (by decide) (by decide) (by decide) (by decide)
  exact ⟨h.1.trans (by decide), h.2.1.trans (by decide)⟩

/-- Claim C4, counterexample: with no active hand the function returns the
empty set even though a prompt with to_call 0 is present, while the claim
demands the check set for every present prompt. -/
theorem legal_actions_cex :
    legal_actions_now false (some ⟨0, 0, 0, 0, 0⟩) = (∅ : Finset HAction) ∧
    (∅ : Finset HAction) ≠ {HAction.check, HAction.bet, HAction.allin} := by
  decide

/-- Claim C4 (amended): the action set is empty whenever the prompt is
absent or no hand is active; for a present prompt with an active hand it is
exactly the check set when toCall is not positive and exactly the fold set
when toCall is positive. -/
theorem legal_actions_amended (ha : Bool) (p : Prompt) :
    legal_actions_now ha none = ∅ ∧
    legal_actions_now false (some p) = ∅ ∧
    (p.toCall ≤ 0 →
      legal_actions_now true (some p) = {HAction.check, HAction.bet, HAction.allin}) ∧
    (0 < p.toCall →
      legal_actions_now true (some p) =
        {HAction.fold, HAction.call, HAction.raise, HAction.allin}) := by
  refine ⟨?_, ?_, ?_, ?_⟩
  · cases ha <;> simp [legal_actions_now]
  · simp [legal_actions_now]
  · intro h; simp [legal_actions_now, h]
  · intro h
    have h2 : ¬ p.toCall ≤ 0 := by omega
    simp [legal_actions_now, h2]

/-- Witness for the amended legal action resolver: an active hand with a
prompt whose to_call is zero offers exactly check, bet and all-in. -/
theorem legal_actions_amended_witness :
    legal_actions_now true (some ⟨0, 0, 0, 0, 0⟩) =
      {HAction.check, HAction.bet, HAction.allin} :=
  (legal_actions_amended true ⟨0, 0, 0, 0, 0⟩).2.2.1 (by decide)

/-- Claim C6 (confirmed): parse_amount is a total function that returns the
parsed value for any string parsing as a non-negative integer and 0 for
blank, malformed or negative input; in particular the empty string, abc and
-5 give 0 while 12 gives 12. -/
theorem parse_amount_thm (raw : String) :
    0 ≤ parse_amount raw ∧
    (∀ n : Int, pyInt? (pyStrip raw) = some n → 0 ≤ n → parse_amount raw = n) ∧
    (pyInt? (pyStrip raw) = none → parse_amount raw = 0) ∧
    (∀ n : Int, pyInt? (pyStrip raw) = some n → n < 0 → parse_amount raw = 0) ∧
    parse_amount "" = 0 ∧ parse_amount "abc" = 0 ∧ parse_amount "-5" = 0 ∧
    parse_amount "12" = 12 := by
  have hempty : pyInt? "" = none := by decide
  refine ⟨?_, ?_, ?_, ?_, by decide, by decide, by decide, by decide⟩
  · simp only [parse_amount]
    split
    · exact le_refl 0
    · cases h : pyInt? (pyStrip raw) with
      | none => simp [h]
      | some n => simp [h, le_max_left]
  · intro n hn hpos
    simp only [parse_amount]
    split
    · next he =>
      rw [he, hempty] at hn
      cases hn
    · rw [hn]
      exact max_eq_right hpos
  · intro hn
    simp only [parse_amount]
    split
    · rfl
    · rw [hn]
  · intro n hn hneg
    simp only [parse_amount]
    split
    · rfl
    · rw [hn]
      simp only []
      omega

/-- Witness for parse_amount: the string 12 parses to 12 through the
universal part of the theorem. -/
theorem parse_amount_thm_witness : parse_amount "12" = 12 :=
  (parse_amount_thm "12").2.1 12 (by decide) (by decide)

/-! ## Theorems: hand progression controller -/

/-- Helper: the scheduled cpu-loop chain stops at the first engine state
satisfying the halting test and has performed exactly one advance call per
non-halted iterate. -/
theorem driveRun_eq (adv : EngineS → EngineS) :
    ∀ (k : Nat) (s : EngineS) (n : Nat),
      (∀ i, i < k → haltNow (adv^[i] s) = false) →
      haltNow (adv^[k] s) = true → k ≤ n →
      driveRun adv n s = (adv^[k] s, k) := by
  intro k
  induction k with
  | zero =>
    intro s n _ hstop _
    simp only [Function.iterate_zero, id_eq] at hstop ⊢
    cases n with
    | zero => simp [driveRun]
    | succ m => simp [driveRun, hstop]
  | succ k ih =>
    intro s n hrun hstop hn
    have h0 : haltNow s = false := by simpa using hrun 0 (Nat.succ_pos k)
    cases n with
    | zero => omega
    | succ m =>
      have hrun2 : ∀ i, i < k → haltNow (adv^[i] (adv s)) = false := by
        intro i hi
        simpa [Function.iterate_succ_apply] using hrun (i + 1) (Nat.succ_lt_succ hi)
      have hstop2 : haltNow (adv^[k] (adv s)) = true := by
        simpa [Function.iterate_succ_apply] using hstop
      have hres := ih (adv s) m hrun2 hstop2 (by omega)
      simp [driveRun, h0, hres, Function.iterate_succ_apply]

/-- Claim C5 (confirmed): for every engine advance oracle, if the k-th
iterate is the first one meeting the halting test then the scheduled loop
chain with enough fuel stops exactly there after exactly k advance calls;
moreover a single scheduled step advances exactly once and reschedules when
the halting test fails, and advances zero times and stops rescheduling when
it holds. -/
theorem drive_loop_thm (adv : EngineS → EngineS) (s : EngineS) (k n : Nat)
    (hrun : ∀ i, i < k → haltNow (adv^[i] s) = false)
    (hstop : haltNow (adv^[k] s) = true)
    (hn : k ≤ n) :
    driveRun adv n s = (adv^[k] s, k) ∧
    (∀ t : EngineS, haltNow t = false → cpuLoopStep adv t = (adv t, 1, true)) ∧
    (∀ t : EngineS, haltNow t = true → cpuLoopStep adv t = (t, 0, false)) := by
  refine ⟨driveRun_eq adv k s n hrun hstop hn, ?_, ?_⟩
  · intro t ht; simp [cpuLoopStep, ht]
  · intro t ht; simp [cpuLoopStep, ht]

/-- Witness for the drive loop: with the oracle that ends the hand on the
first advance, the chain performs exactly one advance and stops. -/
theorem drive_loop_thm_witness :
    driveRun advStopW 1 ⟨true, false⟩ = (advStopW^[1] ⟨true, false⟩, 1) :=
  (drive_loop_thm advStopW ⟨true, false⟩ 1 1
    (fun i hi => by
      have hi0 : i = 0 := by omega
      subst hi0
      decide)
    (by decide) (by omega)).1

/-- Helper: the refresh timer block preserves the timer bookkeeping
invariant. -/
theorem timerInv_refreshTimer {s : Ctrl} (h : TimerInv s) : TimerInv (refreshTimer s) := by
  rcases h with ⟨h1, h2⟩ | ⟨h1, h2⟩ <;>
    cases hha : s.handActive <;>
      simp [TimerInv, refreshTimer, hha, h1, h2]

/-- Helper: an engine advance outcome does not touch the timer fields. -/
theorem timerInv_advanceE {s : Ctrl} (ha wh : Bool) (h : TimerInv s) :
    TimerInv (advanceE ha wh s) := by
  simpa [TimerInv, advanceE] using h

/-- Helper: starting a new hand does not touch the timer fields. -/
theorem timerInv_startNewHandE {s : Ctrl} (h : TimerInv s) : TimerInv (startNewHandE s) := by
  simpa [TimerInv, startNewHandE] using h

/-- Helper: re-creating the engine does not touch the timer fields. -/
theorem timerInv_freshEngineC {s : Ctrl} (h : TimerInv s) : TimerInv (freshEngineC s) := by
  simpa [TimerInv, freshEngineC] using h

/-- Helper: the next-hand path preserves the timer bookkeeping invariant. -/
theorem timerInv_nextHandC {s : Ctrl} (ha wh : Bool) (h : TimerInv s) :
    TimerInv (nextHandC ha wh s) :=
  timerInv_refreshTimer (timerInv_advanceE ha wh (timerInv_startNewHandE h))

/-- Helper: the fired auto-next callback preserves the timer bookkeeping
invariant. -/
theorem timerInv_autoNextFireC {s : Ctrl} (ha wh : Bool) (h : TimerInv s) :
    TimerInv (autoNextFireC ha wh s) := by
  have h1 : TimerInv (autoNextClear s) := by
    rcases h with ⟨ha2, hp⟩ | ⟨ha2, hp⟩ <;> simp [TimerInv, autoNextClear, hp]
  unfold autoNextFireC
  split
  · exact timerInv_nextHandC ha wh h1
  · exact h1

/-- Helper: every controller operation preserves the timer bookkeeping
invariant. -/
theorem timerInv_step {s t : Ctrl} (h : TimerInv s) (hst : Step s t) : TimerInv t := by
  cases hst with
  | nextHand ha wh => exact timerInv_nextHandC ha wh h
  | cpuLoop ha wh =>
    unfold cpuLoopC
    split
    · exact timerInv_refreshTimer h
    · exact timerInv_refreshTimer (timerInv_advanceE ha wh h)
  | act ha wh => exact timerInv_refreshTimer (timerInv_advanceE ha wh h)
  | preset => exact timerInv_refreshTimer (timerInv_freshEngineC h)
  | settings => exact timerInv_refreshTimer (timerInv_freshEngineC h)
  | autoFire ha wh hpend => exact timerInv_autoNextFireC ha wh h

/-- Claim C3, counterexample: at startup a pending auto-next timer exists;
the CPU preset change is a legal step that completes with the timer still
pending while its deferred new-hand start is queued, so the hand is started
(startNewHandE) with the previously pending timer uncancelled; letting that
timer fire before the deferred start then produces two hand starts from one
preset change. -/
theorem auto_next_cancel_cex :
    initCtrl.autoNextId = true ∧
    Step initCtrl (applyCpuPresetC initCtrl) ∧
    (applyCpuPresetC initCtrl).autoNextId = true ∧
    (startNewHandE (applyCpuPresetC initCtrl)).autoNextId = true ∧
    (nextHandC true false (autoNextFireC true false (applyCpuPresetC initCtrl))).starts = 2 :=
  ⟨by decide, Step.preset initCtrl, by decide, by decide, by decide⟩

/-- Claim C3 (amended): in every reachable controller state at most one
auto-next-hand timer is pending, and the recorded after-id exists exactly
when one is pending; however, paths that start a new hand do not cancel a
previously pending timer before the start: the explicit new-hand path
cancels it only in the refresh after the hand has become active, and the
CPU-preset and settings paths leave a pending timer uncancelled. -/
theorem auto_next_invariant (s : Ctrl) (h : Reach s) :
    s.autoNextPend ≤ 1 ∧ (s.autoNextId = true ↔ s.autoNextPend = 1) := by
  have hinv : TimerInv s := by
    induction h with
    | init => exact Or.inl ⟨rfl, rfl⟩
    | step hr hst ih => exact timerInv_step ih hst
  rcases hinv with ⟨h1, h2⟩ | ⟨h1, h2⟩ <;> rw [h1, h2] <;> simp

/-- Witness for the timer invariant at the reachable startup state. -/
theorem auto_next_invariant_witness :
    initCtrl.autoNextPend ≤ 1 ∧ (initCtrl.autoNextId = true ↔ initCtrl.autoNextPend = 1) :=
  auto_next_invariant initCtrl Reach.init

/-- Claim C9 (confirmed): when the win-probability estimate fails the
displayed estimate is absent, the rest of the refresh (the timer block) is
exactly what it would have been on success, and the cpu-loop rescheduling
decision is unaffected by the estimation outcome: it reschedules exactly
when the hand is active and the human is not being awaited. -/
theorem estimation_failure_thm (ha wh heroHole : Bool) (numOpps : Nat) (e : Unit)
    (v : Nat) (s : Ctrl) :
    (refreshStep heroHole numOpps (Except.error e) s).1 = none ∧
    (refreshStep heroHole numOpps (Except.error e) s).2 =
      (refreshStep heroHole numOpps (Except.ok v) s).2 ∧
    (cpuLoopFull ha wh heroHole numOpps (Except.error e) s).2 =
      (cpuLoopFull ha wh heroHole numOpps (Except.ok v) s).2 ∧
    ((cpuLoopFull ha wh heroHole numOpps (Except.error e) s).2 = true ↔
      (s.handActive = true ∧ s.waitingForHuman = false)) := by
  refine ⟨by simp [refreshStep, refreshOdds], rfl, ?_, ?_⟩
  · cases hha : s.handActive <;> cases hwh : s.waitingForHuman <;>
      simp [cpuLoopFull, hha, hwh]
  · cases hha : s.handActive <;> cases hwh : s.waitingForHuman <;>
      simp [cpuLoopFull, hha, hwh]
